import Mathlib

/-! Signing-policy evaluation of integrity-enforcer.

A shallow embedding of `enforcer/pkg/control/sign/signpolicy.go`:
the rule store (`Find`), the rule list (`Eval`), the matchers
(`Subject.Match`, `MatchSigner`), the pattern/rule conversions, the
request-context rewrite (`makeReqcForEval`) and the evaluator
(`ConcreteSignPolicy.Eval`).

Go pointers that the code tests against `nil` are `Option`s; a run-time
panic of the Go program is the `Run.panic` outcome.  The request-context
rewrite is also given on pointers into a memory (`Heap`), where allocating,
copying and assigning are explicit.  Code that lives outside
the translated file (`policy.MatchPattern`, the methods of
`common.ReqContext`, `json.Unmarshal`) is collected in `Env` and every
definition is parametric in it; the collaborators of the evaluator (schema
validation, signature store, verifier, policy look-up) are added in `EvalEnv`.
-/

namespace IntegrityEnforcer

/-! ## Outcomes -/

/-- The two run-time panics the translated code can raise. -/
inductive Panic where
  | nilDereference
  | indexOutOfRange
  deriving DecidableEq

/-- Outcome of running a Go function: it returns a value or it panics. -/
inductive Run (α : Type) where
  | ret (a : α)
  | panic (p : Panic)
  deriving DecidableEq

/-! ## Data model -/

/-- Modelled from the spec: `common.SignerInfo` (declared outside the
translated file); the eleven string fields are those read by `Subject.Match`. -/
structure SignerInfo where
  Email : String
  Uid : String
  Country : String
  Organization : String
  OrganizationalUnit : String
  Locality : String
  Province : String
  StreetAddress : String
  PostalCode : String
  CommonName : String
  SerialNumber : String
  deriving DecidableEq

/-- Modelled from the spec: `common.ReqContext` (declared outside the
translated file), with the attributes the spec lists for a RequestContext. -/
structure ReqContext where
  ApiGroup : String
  ApiVersion : String
  Kind : String
  Name : String
  Namespace : String
  ResourceScope : String
  Operation : String
  RawObject : List UInt8
  UserName : String
  UserGroups : List String
  DryRun : Bool
  deriving DecidableEq

/-- Modelled from the spec: `common.CheckError` (declared outside the
translated file); `Error` is the message of the wrapped Go `error`, if any. -/
structure CheckError where
  Error : Option String
  Reason : String
  deriving DecidableEq

/-- Modelled from the spec: metadata of one target-resource descriptor of a
`rsigpkg.ResourceSignature` (declared outside the translated file). -/
structure SignItemMeta where
  Namespace : String
  deriving DecidableEq

/-- Modelled from the spec: one target-resource descriptor, an element of
`Spec.Data` of a `rsigpkg.ResourceSignature`. -/
structure SignItem where
  Metadata : SignItemMeta
  deriving DecidableEq

/-- Modelled from the spec: `Spec` of a `rsigpkg.ResourceSignature`, the
embedded list of target-resource descriptors. -/
structure ResourceSignatureSpec where
  Data : List SignItem
  deriving DecidableEq

/-- Modelled from the spec: `rsigpkg.ResourceSignature` (declared outside the
translated file), reduced to what `makeReqcForEval` reads. -/
structure ResourceSignature where
  Spec : ResourceSignatureSpec
  deriving DecidableEq

/-- The type `Subject` of signpolicy.go. -/
structure Subject where
  Email : String
  Uid : String
  Country : String
  Organization : String
  OrganizationalUnit : String
  Locality : String
  Province : String
  StreetAddress : String
  PostalCode : String
  CommonName : String
  SerialNumber : String
  deriving DecidableEq

/-- The type `Resource` of signpolicy.go. -/
structure Resource where
  ApiVersion : String
  Kind : String
  Name : String
  Namespace : String
  deriving DecidableEq

/-- The string-typed enum `EnforcerPolicyType` with its three constants. -/
inductive EnforcerPolicyType where
  | Unknown
  | Allow
  | Deny
  deriving DecidableEq

/-- The type `Rule` of signpolicy.go; `Type_` is its field `Type`. -/
structure Rule where
  Type_ : EnforcerPolicyType
  Resource : Resource
  Subject : Subject
  Name : String
  deriving DecidableEq

/-- Modelled from the spec: `policy.RequestMatchPattern` (declared outside
the translated file), the four fields read by `ToPolicyRule`. -/
structure RequestMatchPattern where
  ApiVersion : String
  Kind : String
  Name : String
  Namespace : String
  deriving DecidableEq

/-- Modelled from the spec: `policy.SubjectMatchPattern` (declared outside
the translated file), the eleven fields read by `ToPolicyRule`. -/
structure SubjectMatchPattern where
  Email : String
  Uid : String
  Country : String
  Organization : String
  OrganizationalUnit : String
  Locality : String
  Province : String
  StreetAddress : String
  PostalCode : String
  CommonName : String
  SerialNumber : String
  deriving DecidableEq

/-- Modelled from the spec: `policy.SubjectCondition` (declared outside the
translated file). -/
structure SubjectCondition where
  Name : String
  Subject : SubjectMatchPattern
  deriving DecidableEq

/-- Modelled from the spec: `policy.SignerMatchPattern` (declared outside the
translated file): resource pattern, subject pattern and display name. -/
structure SignerMatchPattern where
  Request : RequestMatchPattern
  Condition : SubjectCondition
  deriving DecidableEq

/-- The type `EnforceRuleEvalResult` of signpolicy.go. -/
structure EnforceRuleEvalResult where
  Signer : Option SignerInfo
  SignerName : String
  Checked : Bool
  Allow : Bool
  MatchedRule : Option Rule
  Error : Option CheckError
  deriving DecidableEq

/-- The type `EnforceRuleFromCR`, the only implementation of the interface
`EnforceRule`; `Instance` is the rule built by `ToPolicyRule`, never nil. -/
structure EnforceRuleFromCR where
  Instance : Rule
  deriving DecidableEq

/-- The type `EnforceRuleList` of signpolicy.go. -/
structure EnforceRuleList where
  Rules : List EnforceRuleFromCR
  deriving DecidableEq

/-- The type `EnforceRuleStoreFromPolicy` of signpolicy.go. -/
structure EnforceRuleStoreFromPolicy where
  Patterns : List SignerMatchPattern
  deriving DecidableEq

/-- Code used by signpolicy.go and declared elsewhere, taken as parameters:
the glob matcher `policy.MatchPattern`, the methods `GroupVersion` and
`IsResourceSignatureRequest` of `common.ReqContext`, and `json.Unmarshal`
into a `*rsigpkg.ResourceSignature` (an error message, or the decoded
pointer, which is nil for the JSON value `null`). -/
structure Env where
  MatchPattern : String → String → Bool
  GroupVersion : ReqContext → String
  IsResourceSignatureRequest : ReqContext → Bool
  Unmarshal : List UInt8 → Except String (Option ResourceSignature)

/-! ## Matchers -/

/-- The method `(v *Subject) Match(signer *common.SignerInfo) bool`. -/
def Subject.Match (E : Env) (v : Subject) (signer : Option SignerInfo) : Bool :=
  match signer with
  | none => false
  | some signer =>
    E.MatchPattern v.Email signer.Email &&
    E.MatchPattern v.Uid signer.Uid &&
    E.MatchPattern v.Country signer.Country &&
    E.MatchPattern v.Organization signer.Organization &&
    E.MatchPattern v.OrganizationalUnit signer.OrganizationalUnit &&
    E.MatchPattern v.Locality signer.Locality &&
    E.MatchPattern v.Province signer.Province &&
    E.MatchPattern v.StreetAddress signer.StreetAddress &&
    E.MatchPattern v.PostalCode signer.PostalCode &&
    E.MatchPattern v.CommonName signer.CommonName &&
    E.MatchPattern v.SerialNumber signer.SerialNumber

/-- The function `MatchSigner`; the pair is `(matched, resourceMatched)`. -/
def MatchSigner (E : Env) (r : Rule) (apiVersion kind name namespace_ : String)
    (signer : Option SignerInfo) : Bool × Bool :=
  let apiVersionOk := E.MatchPattern r.Resource.ApiVersion apiVersion
  let kindOk := E.MatchPattern r.Resource.Kind kind
  let nameOk := E.MatchPattern r.Resource.Name name
  let namespaceOk := E.MatchPattern r.Resource.Namespace namespace_
  let resourceMatched := if apiVersionOk && kindOk && nameOk && namespaceOk then true else false
  if resourceMatched then
    if r.Subject.Match E signer then (true, resourceMatched) else (false, resourceMatched)
  else (false, resourceMatched)

/-! ## Conversions -/

/-- The function `ToPolicyRule`. -/
def ToPolicyRule (self : SignerMatchPattern) : Rule :=
  { Type_ := EnforcerPolicyType.Allow
    Resource :=
      { ApiVersion := self.Request.ApiVersion
        Kind := self.Request.Kind
        Name := self.Request.Name
        Namespace := self.Request.Namespace }
    Subject :=
      { Email := self.Condition.Subject.Email
        Uid := self.Condition.Subject.Uid
        Country := self.Condition.Subject.Country
        Organization := self.Condition.Subject.Organization
        OrganizationalUnit := self.Condition.Subject.OrganizationalUnit
        Locality := self.Condition.Subject.Locality
        Province := self.Condition.Subject.Province
        StreetAddress := self.Condition.Subject.StreetAddress
        PostalCode := self.Condition.Subject.PostalCode
        CommonName := self.Condition.Subject.CommonName
        SerialNumber := self.Condition.Subject.SerialNumber }
    Name := self.Condition.Name }

/-- The function `ToSignerMatchPattern`. -/
def ToSignerMatchPattern (self : Rule) : SignerMatchPattern :=
  { Request :=
      { ApiVersion := self.Resource.ApiVersion
        Kind := self.Resource.Kind
        Name := self.Resource.Name
        Namespace := self.Resource.Namespace }
    Condition :=
      { Name := self.Name
        Subject :=
          { Email := self.Subject.Email
            Uid := self.Subject.Uid
            Country := self.Subject.Country
            Organization := self.Subject.Organization
            OrganizationalUnit := self.Subject.OrganizationalUnit
            Locality := self.Subject.Locality
            Province := self.Subject.Province
            StreetAddress := self.Subject.StreetAddress
            PostalCode := self.Subject.PostalCode
            CommonName := self.Subject.CommonName
            SerialNumber := self.Subject.SerialNumber } } }

/-! ## Rule store and rule list -/

/-- One iteration of the loop of `Find`: the pattern is converted, skipped
(`continue`) when its resource pattern does not match the request, and
appended to the rules collected so far otherwise. -/
def findStep (E : Env) (reqc : ReqContext) (eRules : List EnforceRuleFromCR)
    (p : SignerMatchPattern) : List EnforceRuleFromCR :=
  let r := ToPolicyRule p
  if !(MatchSigner E r (E.GroupVersion reqc) reqc.Kind reqc.Name reqc.Namespace none).2 then
    eRules
  else
    eRules ++ [{ Instance := r }]

/-- The method `(self *EnforceRuleStoreFromPolicy) Find(reqc)`: the range
loop over `self.Patterns`, starting from the empty slice. -/
def EnforceRuleStoreFromPolicy.Find (E : Env) (self : EnforceRuleStoreFromPolicy)
    (reqc : ReqContext) : EnforceRuleList :=
  { Rules := self.Patterns.foldl (findStep E reqc) [] }

/-- The method `(self *EnforceRuleFromCR) Eval(reqc, signer)`; the pair is the
returned result pointer and the returned error (always nil). -/
def EnforceRuleFromCR.Eval (E : Env) (self : EnforceRuleFromCR) (reqc : ReqContext)
    (signer : Option SignerInfo) : Option EnforceRuleEvalResult × Option String :=
  let apiVersion := E.GroupVersion reqc
  let kind := reqc.Kind
  let name := reqc.Name
  let namespace_ := reqc.Namespace
  let ruleOk := (MatchSigner E self.Instance apiVersion kind name namespace_ signer).1
  let matchedRule : Option Rule := if ruleOk then some self.Instance else none
  let signerName : String := if ruleOk then self.Instance.Name else ""
  (some
    { Signer := signer
      SignerName := signerName
      Checked := true
      Allow := ruleOk
      MatchedRule := matchedRule
      Error := none }, none)

/-- The range loop of `EnforceRuleList.Eval`: `some` is the value returned
from inside the loop, `none` means the loop ran to its end. -/
def evalRules (E : Env) (reqc : ReqContext) (signer : Option SignerInfo) :
    List EnforceRuleFromCR → Option (Option EnforceRuleEvalResult × Option String)
  | [] => none
  | rule :: rest =>
    match rule.Eval E reqc signer with
    | (v, some err) => some (v, some err)
    | (some v, none) => if v.Allow then some (some v, none) else evalRules E reqc signer rest
    | (none, none) => evalRules E reqc signer rest

/-- The message built by `fmt.Sprintf` on the deny path of
`EnforceRuleList.Eval`. -/
def noSignerPolicyMessage (email : String) : String :=
  "No signer policies met this resource. this resource is signed by " ++ email

/-- The method `(self *EnforceRuleList) Eval(reqc, signer)`.  After the loop
the code reads `signer.Email`, which panics for a nil `signer`. -/
def EnforceRuleList.Eval (E : Env) (self : EnforceRuleList) (reqc : ReqContext)
    (signer : Option SignerInfo) : Run (Option EnforceRuleEvalResult × Option String) :=
  if self.Rules.length = 0 then
    Run.ret (some
      { Signer := signer
        SignerName := ""
        Checked := true
        Allow := true
        MatchedRule := none
        Error := none }, none)
  else
    match evalRules E reqc signer self.Rules with
    | some out => Run.ret out
    | none =>
      match signer with
      | none => Run.panic Panic.nilDereference
      | some s =>
        Run.ret (some
          { Signer := none
            SignerName := ""
            Checked := true
            Allow := false
            MatchedRule := none
            Error := none }, some (noSignerPolicyMessage s.Email))

/-! ## Request-context rewrite -/

/-- The function `makeReqcForEval`, read on values: the argument is the struct
behind `reqc` and the result is the struct behind the returned pointer.  On
`err == nil` the decoded pointer is dereferenced and `Spec.Data[0]` is indexed
without a check; both can panic.  `Heap.makeReqcForEval` below is the same
function on pointers into a memory; `heap_makeReqcForEval_refines` relates
the two. -/
def makeReqcForEval (E : Env) (reqc : ReqContext) (rawObj : List UInt8) : Run ReqContext :=
  let isResourceSignature := E.IsResourceSignatureRequest reqc
  if !isResourceSignature then
    Run.ret reqc
  else
    let reqcForEval : ReqContext := reqc
    if isResourceSignature then
      match E.Unmarshal rawObj with
      | Except.error _ => Run.ret reqcForEval
      | Except.ok none => Run.panic Panic.nilDereference
      | Except.ok (some rsigObj) =>
        match rsigObj.Spec.Data with
        | [] => Run.panic Panic.indexOutOfRange
        | d :: _ =>
          if d.Metadata.Namespace ≠ "" then
            Run.ret { reqcForEval with Namespace := d.Metadata.Namespace }
          else
            Run.ret reqcForEval
    else
      Run.ret reqcForEval

/-! ## Request-context rewrite on pointers -/

/-- Memory of the request contexts allocated so far; a pointer
`*common.ReqContext` is an index into `cells`. -/
structure Heap where
  cells : List ReqContext
  deriving DecidableEq

/-- Reading through a pointer: the struct it points to, or nothing for a
pointer that points to no allocated struct. -/
def Heap.load (h : Heap) (p : Nat) : Option ReqContext :=
  h.cells[p]?

/-- Writing a whole struct through a pointer. -/
def Heap.store (h : Heap) (p : Nat) (v : ReqContext) : Heap :=
  { cells := h.cells.set p v }

/-- Allocation of a new struct holding `v`: the extended memory and the
pointer to the new struct. -/
def Heap.alloc (h : Heap) (v : ReqContext) : Heap × Nat :=
  ({ cells := h.cells ++ [v] }, h.cells.length)

/-- The zero value `common.ReqContext{}`. -/
def zeroReqContext : ReqContext :=
  { ApiGroup := ""
    ApiVersion := ""
    Kind := ""
    Name := ""
    Namespace := ""
    ResourceScope := ""
    Operation := ""
    RawObject := []
    UserName := ""
    UserGroups := []
    DryRun := false }

/-- The call `copier.Copy(&dst, &src)` of the library `jinzhu/copier` on two
pointers to structs of the same type: every field of the struct behind `src`
is assigned to the same field of the struct behind `dst`. -/
def Heap.copierCopy (h : Heap) (dst src : Nat) : Heap :=
  match h.load src with
  | some v => h.store dst v
  | none => h

/-- The assignment `p.Namespace = ns` through a pointer. -/
def Heap.setNamespace (h : Heap) (p : Nat) (ns : String) : Run Heap :=
  match h.load p with
  | some c => Run.ret (h.store p { c with Namespace := ns })
  | none => Run.panic Panic.nilDereference

/-- The function `makeReqcForEval` on pointers: `reqc` points into the memory
`h`, the result is the memory after the call and the returned pointer.  A
request that is not a resource signature is returned as the same pointer;
otherwise `&common.ReqContext{}` allocates `reqcForEval`, `copier.Copy` fills
it from `reqc`, and the namespace is assigned through `reqcForEval`. -/
def Heap.makeReqcForEval (E : Env) (h : Heap) (reqc : Nat) (rawObj : List UInt8) :
    Run (Heap × Nat) :=
  match h.load reqc with
  | none => Run.panic Panic.nilDereference
  | some self =>
    let isResourceSignature := E.IsResourceSignatureRequest self
    if !isResourceSignature then
      Run.ret (h, reqc)
    else
      let (h1, reqcForEval) := h.alloc zeroReqContext
      let h2 := h1.copierCopy reqcForEval reqc
      if isResourceSignature then
        match E.Unmarshal rawObj with
        | Except.error _ => Run.ret (h2, reqcForEval)
        | Except.ok none => Run.panic Panic.nilDereference
        | Except.ok (some rsigObj) =>
          match rsigObj.Spec.Data with
          | [] => Run.panic Panic.indexOutOfRange
          | d :: _ =>
            if d.Metadata.Namespace ≠ "" then
              match h2.setNamespace reqcForEval d.Metadata.Namespace with
              | Run.ret h3 => Run.ret (h3, reqcForEval)
              | Run.panic p => Run.panic p
            else
              Run.ret (h2, reqcForEval)
      else
        Run.ret (h2, reqcForEval)

/-! ## Signing-policy evaluator -/

/-- Modelled from the spec: `common.SignPolicyEvalResult` (declared outside
the translated file), the six fields `ConcreteSignPolicy.Eval` sets. -/
structure SignPolicyEvalResult where
  Signer : Option SignerInfo
  SignerName : String
  Allow : Bool
  Checked : Bool
  MatchedPolicy : String
  Error : Option CheckError
  deriving DecidableEq

/-- Modelled from the spec: the signature envelope the signature store returns
(declared outside the translated file): the format tag read as
`rsig.SignType` and the signature bytes. -/
structure StoredSignature where
  SignType : String
  Signature : List UInt8
  deriving DecidableEq

/-- Modelled from the spec: the result of a verifier (declared outside the
translated file): the resolved signer, or nil, and the verifier's own check
error, read as `sigVerifyResult.Error.Reason`. -/
structure SigVerifyResult where
  Signer : Option SignerInfo
  Error : Option CheckError
  deriving DecidableEq

/-- Modelled from the spec: `policy.PolicyList` (declared outside the
translated file), the ordered, pre-loaded signer-match patterns of the policy
source. -/
structure PolicyList where
  Signer : List SignerMatchPattern
  deriving DecidableEq

/-- Modelled from the spec: the method `GetSigner` of `policy.PolicyList`,
the signer-match patterns of the active policy in their configured order. -/
def PolicyList.GetSigner (self : PolicyList) : List SignerMatchPattern :=
  self.Signer

/-- The type `ConcreteSignPolicy` of signpolicy.go. -/
structure ConcreteSignPolicy where
  EnforcerNamespace : String
  PolicyNamespace : String
  Policy : PolicyList
  deriving DecidableEq

/-- Code used by `ConcreteSignPolicy.Eval` and declared elsewhere, taken as
parameters on top of `Env`:
* `IsEnforcePolicyRequest`, a method of `common.ReqContext`;
* `ValidateEnforcePolicy reqc enforcerNs policyNs`, the outcome of decoding
  `reqc.RawObject` into `polObj` and of `polObj.Spec.Policy.Validate(...)`,
  which panics when the decoded pointer is nil;
* `ValidateResourceSignature reqc`, the outcome of decoding `reqc.RawObject`
  into `rsigObj` and of `rsigObj.Validate()`;
* the two kind constants of package `common`;
* `GetResourceSignature reqc`, that is
  `GetSignStore().GetResourceSignature(reqc.ResourceRef(), reqc)`;
* `Verify signType enforcerNs rsig reqc`, that is
  `NewVerifier(signType, enforcerNs).Verify(rsig, reqc)`, the pair of the
  result pointer and the error;
* `FindMatchedSignerPolicy policy reqc pattern`, the `String()` of the policy
  found by `policy.FindMatchedSignerPolicy`, or nil. -/
structure EvalEnv extends Env where
  IsEnforcePolicyRequest : ReqContext → Bool
  ValidateEnforcePolicy : ReqContext → String → String → Run (Bool × String)
  ValidateResourceSignature : ReqContext → Bool × String
  PolicyCustomResourceKind : String
  SignatureCustomResourceKind : String
  GetResourceSignature : ReqContext → Option StoredSignature
  Verify : String → String → StoredSignature → ReqContext → Option SigVerifyResult × Option String
  FindMatchedSignerPolicy : PolicyList → ReqContext → SignerMatchPattern → Option String

/-- The calls `ConcreteSignPolicy.Eval` makes after the schema checks, in the
order of the source: signature store, verifier, rule store, rule list and
policy look-up. -/
inductive Call where
  | getResourceSignature
  | verify
  | find
  | evalRuleList
  | findMatchedSignerPolicy
  deriving DecidableEq

/-- The message `msg` of the verification-failure branch: the reason of the
verifier's own error when there is a result carrying one, empty otherwise. -/
def verifyFailureMessage (sigVerifyResult : Option SigVerifyResult) : String :=
  match sigVerifyResult with
  | some r =>
    match r.Error with
    | some e => e.Reason
    | none => ""
  | none => ""

/-- The method `(self *ConcreteSignPolicy) Eval(reqc)`.  The first component
lists the calls made, the second is the outcome: the returned result pointer
and the returned error (nil on every return of the source). -/
def ConcreteSignPolicy.Eval (E : EvalEnv) (self : ConcreteSignPolicy) (reqc : ReqContext) :
    List Call × Run (Option SignPolicyEvalResult × Option String) :=
  let policyCheck : Run (Bool × String) :=
    if E.IsEnforcePolicyRequest reqc then
      E.ValidateEnforcePolicy reqc self.EnforcerNamespace self.PolicyNamespace
    else Run.ret (true, "")
  match policyCheck with
  | Run.panic p => ([], Run.panic p)
  | Run.ret (false, reasonFail) =>
    ([], Run.ret (some
      { Signer := none
        SignerName := ""
        Allow := false
        Checked := true
        MatchedPolicy := ""
        Error := some
          { Error := none
            Reason := "Schema Error for " ++ E.PolicyCustomResourceKind ++ "; " ++ reasonFail } },
      none))
  | Run.ret (true, _) =>
  let signatureCheck : Bool × String :=
    if E.IsResourceSignatureRequest reqc then E.ValidateResourceSignature reqc else (true, "")
  match signatureCheck with
  | (false, reasonFail) =>
    ([], Run.ret (some
      { Signer := none
        SignerName := ""
        Allow := false
        Checked := true
        MatchedPolicy := ""
        Error := some
          { Error := none
            Reason := "Schema Error for " ++ E.SignatureCustomResourceKind ++ "; " ++ reasonFail } },
      none))
  | (true, _) =>
  match E.GetResourceSignature reqc with
  | none =>
    ([Call.getResourceSignature], Run.ret (some
      { Signer := none
        SignerName := ""
        Allow := false
        Checked := true
        MatchedPolicy := ""
        Error := some { Error := none, Reason := "No signature found" } }, none))
  | some rsig =>
  match E.Verify rsig.SignType self.EnforcerNamespace rsig reqc with
  | (_, some err) =>
    ([Call.getResourceSignature, Call.verify], Run.ret (some
      { Signer := none
        SignerName := ""
        Allow := false
        Checked := true
        MatchedPolicy := ""
        Error := some { Error := some err, Reason := "Error during signature verification" } },
      none))
  | (sigVerifyResult, none) =>
  match sigVerifyResult.bind (fun r => r.Signer) with
  | none =>
    ([Call.getResourceSignature, Call.verify], Run.ret (some
      { Signer := none
        SignerName := ""
        Allow := false
        Checked := true
        MatchedPolicy := ""
        Error := some
          { Error := none
            Reason := "Failed to verify signature; " ++ verifyFailureMessage sigVerifyResult } },
      none))
  | some signer =>
  let signerPatterns := self.Policy.GetSigner
  let ruleStore : EnforceRuleStoreFromPolicy := { Patterns := signerPatterns }
  match makeReqcForEval E.toEnv reqc reqc.RawObject with
  | Run.panic p => ([Call.getResourceSignature, Call.verify], Run.panic p)
  | Run.ret reqcForEval =>
  let ruleList := ruleStore.Find E.toEnv reqcForEval
  let calls := [Call.getResourceSignature, Call.verify, Call.find, Call.evalRuleList]
  match ruleList.Eval E.toEnv reqcForEval (some signer) with
  | Run.panic p => (calls, Run.panic p)
  | Run.ret (_, some err) =>
    (calls, Run.ret (some
      { Signer := some signer
        SignerName := ""
        Allow := false
        Checked := true
        MatchedPolicy := ""
        Error := some { Error := some err, Reason := err } }, none))
  | Run.ret (none, none) => (calls, Run.panic Panic.nilDereference)
  | Run.ret (some ruleEvalResult, none) =>
    match ruleEvalResult.MatchedRule with
    | none =>
      (calls, Run.ret (some
        { Signer := ruleEvalResult.Signer
          SignerName := ruleEvalResult.SignerName
          Allow := ruleEvalResult.Allow
          Checked := ruleEvalResult.Checked
          MatchedPolicy := ""
          Error := ruleEvalResult.Error }, none))
    | some matchedRule =>
      let matchedPolicyStr : String :=
        match E.FindMatchedSignerPolicy self.Policy reqc (ToSignerMatchPattern matchedRule) with
        | some str => str
        | none => ""
      (calls ++ [Call.findMatchedSignerPolicy], Run.ret (some
        { Signer := ruleEvalResult.Signer
          SignerName := ruleEvalResult.SignerName
          Allow := ruleEvalResult.Allow
          Checked := ruleEvalResult.Checked
          MatchedPolicy := matchedPolicyStr
          Error := ruleEvalResult.Error }, none))

/-! ## Sample inputs -/

/-- Modelled from the spec: a pattern matcher for patterns without wildcard
tokens (section 4.1 of the spec): the empty pattern matches any value, any
other pattern requires equality.  It stands in for `policy.MatchPattern`
when the definitions are evaluated on sample inputs. -/
def literalMatch (pattern value : String) : Bool :=
  pattern == "" || pattern == value

/-- Sample environment: literal patterns, requests of kind
`ResourceSignature` are resource-signature requests, and the decoder yields
`decoded` for the payload. -/
def sampleEnv (decoded : Except String (Option ResourceSignature)) : Env :=
  { MatchPattern := literalMatch
    GroupVersion := fun reqc => reqc.ApiGroup ++ "/" ++ reqc.ApiVersion
    IsResourceSignatureRequest := fun reqc => reqc.Kind == "ResourceSignature"
    Unmarshal := fun _ => decoded }

/-- Sample request of a given kind in a given namespace. -/
def sampleReqc (kind namespace_ : String) : ReqContext :=
  { ApiGroup := ""
    ApiVersion := "v1"
    Kind := kind
    Name := "app-config"
    Namespace := namespace_
    ResourceScope := "Namespaced"
    Operation := "CREATE"
    RawObject := []
    UserName := "dev"
    UserGroups := []
    DryRun := false }

/-- Sample signer with a given email and organization. -/
def sampleSigner (email organization : String) : SignerInfo :=
  { Email := email
    Uid := ""
    Country := ""
    Organization := organization
    OrganizationalUnit := ""
    Locality := ""
    Province := ""
    StreetAddress := ""
    PostalCode := ""
    CommonName := ""
    SerialNumber := "" }

/-- Sample signer-match pattern: every field unconstrained except the kind,
the namespace and the signer's email. -/
def samplePattern (ruleName kind namespace_ email : String) : SignerMatchPattern :=
  { Request := { ApiVersion := "", Kind := kind, Name := "", Namespace := namespace_ }
    Condition :=
      { Name := ruleName
        Subject :=
          { Email := email
            Uid := ""
            Country := ""
            Organization := ""
            OrganizationalUnit := ""
            Locality := ""
            Province := ""
            StreetAddress := ""
            PostalCode := ""
            CommonName := ""
            SerialNumber := "" } } }

/-- Sample rule, the conversion of `samplePattern`. -/
def sampleRule (ruleName kind namespace_ email : String) : EnforceRuleFromCR :=
  { Instance := ToPolicyRule (samplePattern ruleName kind namespace_ email) }

/-- Sample rule list `[R1, R2]`: both rules match a `ConfigMap` request in
namespace `prod` signed by `bob@co.com`, and they carry different names. -/
def sampleRules : EnforceRuleList :=
  { Rules := [sampleRule "R1" "ConfigMap" "prod" "bob@co.com", sampleRule "R2" "ConfigMap" "" ""] }

/-- Sample environment of the evaluator: the schema checks pass, the
signature store yields `stored`, the verifier yields `verified`, and the
policy look-up describes a pattern by its condition name. -/
def sampleEvalEnv (stored : Option StoredSignature)
    (verified : Option SigVerifyResult × Option String) : EvalEnv :=
  { toEnv := sampleEnv (Except.error "eof")
    IsEnforcePolicyRequest := fun reqc => reqc.Kind == "EnforcePolicy"
    ValidateEnforcePolicy := fun _ _ _ => Run.ret (true, "")
    ValidateResourceSignature := fun _ => (true, "")
    PolicyCustomResourceKind := "EnforcePolicy"
    SignatureCustomResourceKind := "ResourceSignature"
    GetResourceSignature := fun _ => stored
    Verify := fun _ _ _ _ => verified
    FindMatchedSignerPolicy := fun _ _ pattern => some pattern.Condition.Name }

/-- Sample evaluator with one signer-match pattern: `ConfigMap`s of namespace
`prod` signed by `bob@co.com`. -/
def samplePolicy : ConcreteSignPolicy :=
  { EnforcerNamespace := "ie-ns"
    PolicyNamespace := "policy-ns"
    Policy := { Signer := [samplePattern "R1" "ConfigMap" "prod" "bob@co.com"] } }

/-- Sample stored signature. -/
def sampleSignature : StoredSignature :=
  { SignType := "pgp", Signature := [1, 2, 3] }

/-! ## Specification-side definitions -/

/-- The resource pattern of a signer-match pattern matches the coordinates of
a request: the pattern matcher succeeds on apiVersion against the request's
GroupVersion, and on kind, name and namespace. -/
def resourcePatternMatches (E : Env) (reqc : ReqContext) (p : SignerMatchPattern) : Bool :=
  E.MatchPattern p.Request.ApiVersion (E.GroupVersion reqc) &&
  E.MatchPattern p.Request.Kind reqc.Kind &&
  E.MatchPattern p.Request.Name reqc.Name &&
  E.MatchPattern p.Request.Namespace reqc.Namespace

/-- The rule list the spec describes for rule selection: the patterns whose
resource pattern matches the request, in their order, each converted to a
rule. -/
def selectedRules (E : Env) (reqc : ReqContext) (patterns : List SignerMatchPattern) :
    List EnforceRuleFromCR :=
  (patterns.filter (resourcePatternMatches E reqc)).map (fun p => { Instance := ToPolicyRule p })

/-- The subject pattern of a signer-match pattern matches a signer: the
pattern matcher succeeds on each of the eleven identity fields. -/
def subjectPatternMatches (E : Env) (p : SignerMatchPattern) (s : SignerInfo) : Bool :=
  E.MatchPattern p.Condition.Subject.Email s.Email &&
  E.MatchPattern p.Condition.Subject.Uid s.Uid &&
  E.MatchPattern p.Condition.Subject.Country s.Country &&
  E.MatchPattern p.Condition.Subject.Organization s.Organization &&
  E.MatchPattern p.Condition.Subject.OrganizationalUnit s.OrganizationalUnit &&
  E.MatchPattern p.Condition.Subject.Locality s.Locality &&
  E.MatchPattern p.Condition.Subject.Province s.Province &&
  E.MatchPattern p.Condition.Subject.StreetAddress s.StreetAddress &&
  E.MatchPattern p.Condition.Subject.PostalCode s.PostalCode &&
  E.MatchPattern p.Condition.Subject.CommonName s.CommonName &&
  E.MatchPattern p.Condition.Subject.SerialNumber s.SerialNumber

/-! ## Lemmas on the rule loop -/

/-- What a single rule returns: a non-nil result whose `Allow` is the
`matched` flag of `MatchSigner`, and a nil error. -/
theorem EnforceRuleFromCR.Eval_eq (E : Env) (rule : EnforceRuleFromCR) (reqc : ReqContext)
    (signer : Option SignerInfo) :
    rule.Eval E reqc signer =
      (some
        { Signer := signer
          SignerName :=
            if (MatchSigner E rule.Instance (E.GroupVersion reqc) reqc.Kind reqc.Name
                reqc.Namespace signer).1 then rule.Instance.Name else ""
          Checked := true
          Allow :=
            (MatchSigner E rule.Instance (E.GroupVersion reqc) reqc.Kind reqc.Name
              reqc.Namespace signer).1
          MatchedRule :=
            if (MatchSigner E rule.Instance (E.GroupVersion reqc) reqc.Kind reqc.Name
                reqc.Namespace signer).1 then some rule.Instance else none
          Error := none }, none) := rfl

/-- The loop skips a rule that does not match. -/
theorem evalRules_cons_of_not_matched (E : Env) (reqc : ReqContext) (signer : Option SignerInfo)
    (rule : EnforceRuleFromCR) (rest : List EnforceRuleFromCR)
    (h : (MatchSigner E rule.Instance (E.GroupVersion reqc) reqc.Kind reqc.Name
      reqc.Namespace signer).1 = false) :
    evalRules E reqc signer (rule :: rest) = evalRules E reqc signer rest := by
  simp [evalRules, EnforceRuleFromCR.Eval_eq, h]

/-- The loop returns from a rule that matches. -/
theorem evalRules_cons_of_matched (E : Env) (reqc : ReqContext) (signer : Option SignerInfo)
    (rule : EnforceRuleFromCR) (rest : List EnforceRuleFromCR)
    (h : (MatchSigner E rule.Instance (E.GroupVersion reqc) reqc.Kind reqc.Name
      reqc.Namespace signer).1 = true) :
    evalRules E reqc signer (rule :: rest) =
      some (some
        { Signer := signer
          SignerName := rule.Instance.Name
          Checked := true
          Allow := true
          MatchedRule := some rule.Instance
          Error := none }, none) := by
  simp [evalRules, EnforceRuleFromCR.Eval_eq, h]

/-- The loop runs to its end when no rule matches. -/
theorem evalRules_eq_none (E : Env) (reqc : ReqContext) (signer : Option SignerInfo)
    (rules : List EnforceRuleFromCR)
    (h : ∀ x ∈ rules, (MatchSigner E x.Instance (E.GroupVersion reqc) reqc.Kind reqc.Name
      reqc.Namespace signer).1 = false) :
    evalRules E reqc signer rules = none := by
  induction rules with
  | nil => rfl
  | cons rule rest ih =>
    rw [evalRules_cons_of_not_matched E reqc signer rule rest (h rule (List.mem_cons_self _ _))]
    exact ih (fun x hx => h x (List.mem_cons_of_mem _ hx))

/-- The loop returns the result of the first rule that matches. -/
theorem evalRules_first_match (E : Env) (reqc : ReqContext) (signer : Option SignerInfo)
    (pre : List EnforceRuleFromCR) (rule : EnforceRuleFromCR) (post : List EnforceRuleFromCR)
    (hpre : ∀ x ∈ pre, (MatchSigner E x.Instance (E.GroupVersion reqc) reqc.Kind reqc.Name
      reqc.Namespace signer).1 = false)
    (h : (MatchSigner E rule.Instance (E.GroupVersion reqc) reqc.Kind reqc.Name
      reqc.Namespace signer).1 = true) :
    evalRules E reqc signer (pre ++ rule :: post) =
      some (some
        { Signer := signer
          SignerName := rule.Instance.Name
          Checked := true
          Allow := true
          MatchedRule := some rule.Instance
          Error := none }, none) := by
  induction pre with
  | nil => exact evalRules_cons_of_matched E reqc signer rule post h
  | cons x xs ih =>
    rw [List.cons_append,
      evalRules_cons_of_not_matched E reqc signer x _ (hpre x (List.mem_cons_self _ _))]
    exact ih (fun y hy => hpre y (List.mem_cons_of_mem _ hy))

/-- A list with an element satisfying `p` splits at the earliest such
element. -/
theorem exists_first_split {α : Type} (p : α → Bool) (l : List α) (h : ∃ x ∈ l, p x = true) :
    ∃ pre x post, l = pre ++ x :: post ∧ (∀ y ∈ pre, p y = false) ∧ p x = true := by
  induction l with
  | nil => simp at h
  | cons a as ih =>
    by_cases ha : p a = true
    · exact ⟨[], a, as, rfl, by simp, ha⟩
    · have hrest : ∃ x ∈ as, p x = true := by
        obtain ⟨x, hx, hpx⟩ := h
        rcases List.mem_cons.mp hx with rfl | hx
        · exact absurd hpx ha
        · exact ⟨x, hx, hpx⟩
      obtain ⟨pre, x, post, hl, hpre, hx⟩ := ih hrest
      refine ⟨a :: pre, x, post, by simp [hl], ?_, hx⟩
      intro y hy
      rcases List.mem_cons.mp hy with rfl | hy
      · simpa using ha
      · exact hpre y hy

/-- A rule list whose first rule matches evaluates to that rule, whatever
follows it: for `[R1, R2]` with both rules matching, the result names `R1`. -/
theorem EnforceRuleList.Eval_of_head_matched (E : Env) (reqc : ReqContext)
    (signer : Option SignerInfo) (rule : EnforceRuleFromCR) (rest : List EnforceRuleFromCR)
    (h : (MatchSigner E rule.Instance (E.GroupVersion reqc) reqc.Kind reqc.Name
      reqc.Namespace signer).1 = true) :
    EnforceRuleList.Eval E { Rules := rule :: rest } reqc signer =
      Run.ret (some
        { Signer := signer
          SignerName := rule.Instance.Name
          Checked := true
          Allow := true
          MatchedRule := some rule.Instance
          Error := none }, none) := by
  simp [EnforceRuleList.Eval, evalRules_cons_of_matched E reqc signer rule rest h]

/-- With a nil signer and a non-empty rule list, `EnforceRuleList.Eval` never
returns: the loop runs to its end and `signer.Email` dereferences nil. -/
theorem EnforceRuleList.Eval_nil_signer (E : Env) (rules : EnforceRuleList) (reqc : ReqContext)
    (hne : rules.Rules ≠ []) :
    rules.Eval E reqc none = Run.panic Panic.nilDereference := by
  have hno : ∀ x ∈ rules.Rules, (MatchSigner E x.Instance (E.GroupVersion reqc) reqc.Kind
      reqc.Name reqc.Namespace none).1 = false := by
    intro x _
    simp [MatchSigner, Subject.Match]
  have hlen : rules.Rules.length ≠ 0 := by
    simpa [List.length_eq_zero] using hne
  simp [EnforceRuleList.Eval, hlen, evalRules_eq_none E reqc none rules.Rules hno]

/-! ## Lemmas on rule selection and on the context rewrite -/

/-- The `resourceMatched` flag of `MatchSigner` is the conjunction of the four
coordinate matches, whatever the signer. -/
theorem MatchSigner_snd (E : Env) (r : Rule) (apiVersion kind name namespace_ : String)
    (signer : Option SignerInfo) :
    (MatchSigner E r apiVersion kind name namespace_ signer).2 =
      (E.MatchPattern r.Resource.ApiVersion apiVersion &&
        E.MatchPattern r.Resource.Kind kind &&
        E.MatchPattern r.Resource.Name name &&
        E.MatchPattern r.Resource.Namespace namespace_) := by
  unfold MatchSigner
  cases E.MatchPattern r.Resource.ApiVersion apiVersion <;>
  cases E.MatchPattern r.Resource.Kind kind <;>
  cases E.MatchPattern r.Resource.Name name <;>
  cases E.MatchPattern r.Resource.Namespace namespace_ <;>
  cases r.Subject.Match E signer <;> simp

/-- The `resourceMatched` flag of `MatchSigner` on a converted pattern is the
specification-side resource match of the pattern. -/
theorem MatchSigner_ToPolicyRule_snd (E : Env) (reqc : ReqContext) (p : SignerMatchPattern)
    (signer : Option SignerInfo) :
    (MatchSigner E (ToPolicyRule p) (E.GroupVersion reqc) reqc.Kind reqc.Name reqc.Namespace
      signer).2 = resourcePatternMatches E reqc p := by
  rw [MatchSigner_snd]
  rfl

/-- The loop of `Find` started from `acc` appends the selected rules to `acc`. -/
theorem foldl_findStep (E : Env) (reqc : ReqContext) (patterns : List SignerMatchPattern)
    (acc : List EnforceRuleFromCR) :
    patterns.foldl (findStep E reqc) acc = acc ++ selectedRules E reqc patterns := by
  induction patterns generalizing acc with
  | nil => simp [selectedRules]
  | cons p ps ih =>
    rw [List.foldl_cons, ih]
    by_cases hp : resourcePatternMatches E reqc p = true
    · simp [findStep, selectedRules, MatchSigner_ToPolicyRule_snd, hp]
    · simp [findStep, selectedRules, MatchSigner_ToPolicyRule_snd, hp]

/-- A request that is not a resource-signature request is returned as is. -/
theorem makeReqcForEval_other_kind (E : Env) (reqc : ReqContext) (rawObj : List UInt8)
    (hkind : E.IsResourceSignatureRequest reqc = false) :
    makeReqcForEval E reqc rawObj = Run.ret reqc := by
  simp [makeReqcForEval, hkind]

/-- Lenient fallback, first half: a payload that fails to parse keeps the
request as it is. -/
theorem makeReqcForEval_parse_error (E : Env) (reqc : ReqContext) (rawObj : List UInt8)
    (msg : String) (hparse : E.Unmarshal rawObj = Except.error msg) :
    makeReqcForEval E reqc rawObj = Run.ret reqc := by
  cases hkind : E.IsResourceSignatureRequest reqc <;> simp [makeReqcForEval, hkind, hparse]

/-- Lenient fallback, second half: a first descriptor with an empty namespace
keeps the request as it is. -/
theorem makeReqcForEval_empty_namespace (E : Env) (reqc : ReqContext) (rawObj : List UInt8)
    (rsigObj : ResourceSignature) (d : SignItem) (rest : List SignItem)
    (hparse : E.Unmarshal rawObj = Except.ok (some rsigObj))
    (hdata : rsigObj.Spec.Data = d :: rest) (hns : d.Metadata.Namespace = "") :
    makeReqcForEval E reqc rawObj = Run.ret reqc := by
  cases hkind : E.IsResourceSignatureRequest reqc <;>
    simp [makeReqcForEval, hkind, hparse, hdata, hns]

/-- A resource-signature request whose payload decodes to a nil pointer (the
JSON value `null`) makes `makeReqcForEval` panic on `rsigObj.Spec`. -/
theorem makeReqcForEval_null_payload (E : Env) (reqc : ReqContext) (rawObj : List UInt8)
    (hkind : E.IsResourceSignatureRequest reqc = true)
    (hparse : E.Unmarshal rawObj = Except.ok none) :
    makeReqcForEval E reqc rawObj = Run.panic Panic.nilDereference := by
  simp [makeReqcForEval, hkind, hparse]

/-- A resource-signature request whose payload decodes to an object without
target descriptors makes `makeReqcForEval` panic on `Spec.Data[0]`. -/
theorem makeReqcForEval_no_descriptor (E : Env) (reqc : ReqContext) (rawObj : List UInt8)
    (rsigObj : ResourceSignature)
    (hkind : E.IsResourceSignatureRequest reqc = true)
    (hparse : E.Unmarshal rawObj = Except.ok (some rsigObj))
    (hdata : rsigObj.Spec.Data = []) :
    makeReqcForEval E reqc rawObj = Run.panic Panic.indexOutOfRange := by
  simp [makeReqcForEval, hkind, hparse, hdata]

/-! ## Lemmas on the context rewrite on pointers -/

/-- Overwriting the last element of a list. -/
theorem set_length_append_singleton {α : Type} (l : List α) (a b : α) :
    (l ++ [a]).set l.length b = l ++ [b] := by
  induction l with
  | nil => rfl
  | cons x xs ih => simp [ih]

/-- Reading the last element of a list. -/
theorem getElem?_length_append_singleton {α : Type} (l : List α) (a : α) :
    (l ++ [a])[l.length]? = some a := by
  induction l with
  | nil => rfl
  | cons x xs ih => simp [ih]

/-- Reading an element is not affected by appending to the list. -/
theorem getElem?_append_of_eq_some {α : Type} (l m : List α) (i : Nat) (c : α)
    (hc : l[i]? = some c) : (l ++ m)[i]? = some c := by
  induction l generalizing i with
  | nil => simp at hc
  | cons x xs ih =>
    cases i with
    | zero => simpa using hc
    | succ j =>
      simp only [List.cons_append, List.getElem?_cons_succ] at hc ⊢
      exact ih j hc

/-- A pointer that can be read is below the next free address. -/
theorem Heap.lt_length_of_load (h : Heap) (p : Nat) (c : ReqContext)
    (hc : h.load p = some c) : p < h.cells.length := by
  unfold Heap.load at hc
  by_contra hge
  rw [List.getElem?_eq_none (Nat.le_of_not_lt hge)] at hc
  exact Option.noConfusion hc

/-- Allocation followed by `copier.Copy` from `reqc`: the new struct holds the
fields of the struct behind `reqc`, all other structs are as before. -/
theorem Heap.copierCopy_alloc (h : Heap) (reqc : Nat) (self : ReqContext)
    (hload : h.load reqc = some self) :
    (h.alloc zeroReqContext).1.copierCopy (h.alloc zeroReqContext).2 reqc =
      { cells := h.cells ++ [self] } := by
  have hread : (h.alloc zeroReqContext).1.load reqc = some self :=
    getElem?_append_of_eq_some h.cells [zeroReqContext] reqc self hload
  simp only [Heap.copierCopy, hread]
  simp only [Heap.store, Heap.alloc, set_length_append_singleton]

/-- The assignment of the namespace through the pointer to the last struct. -/
theorem Heap.setNamespace_last (l : List ReqContext) (c : ReqContext) (ns : String) :
    Heap.setNamespace { cells := l ++ [c] } l.length ns =
      Run.ret { cells := l ++ [{ c with Namespace := ns }] } := by
  simp only [Heap.setNamespace, Heap.load, getElem?_length_append_singleton, Heap.store,
    set_length_append_singleton]

/-- On a resource-signature request the function on pointers allocates one
struct behind all others and leaves in it what the function on values
returns; it panics where the function on values panics. -/
theorem heap_makeReqcForEval_of_resource_signature (E : Env) (h : Heap) (reqc : Nat)
    (self : ReqContext) (rawObj : List UInt8) (hload : h.load reqc = some self)
    (hkind : E.IsResourceSignatureRequest self = true) :
    Heap.makeReqcForEval E h reqc rawObj =
      match makeReqcForEval E self rawObj with
      | Run.ret out => Run.ret ({ cells := h.cells ++ [out] }, h.cells.length)
      | Run.panic p => Run.panic p := by
  have hcopy := Heap.copierCopy_alloc h reqc self hload
  simp only [Heap.alloc] at hcopy
  unfold Heap.makeReqcForEval makeReqcForEval
  simp only [hload, hkind, Heap.alloc, hcopy]
  cases hparse : E.Unmarshal rawObj with
  | error msg => simp
  | ok decoded =>
    cases decoded with
    | none => simp
    | some rsigObj =>
      cases hdata : rsigObj.Spec.Data with
      | nil => simp [hdata]
      | cons d rest =>
        by_cases hns : d.Metadata.Namespace = ""
        · simp [hdata, hns]
        · simp [hdata, hns, Heap.setNamespace_last]

/-- On any other request the function on pointers returns the pointer it was
given and the memory as it was. -/
theorem heap_makeReqcForEval_of_other_kind (E : Env) (h : Heap) (reqc : Nat)
    (self : ReqContext) (rawObj : List UInt8) (hload : h.load reqc = some self)
    (hkind : E.IsResourceSignatureRequest self = false) :
    Heap.makeReqcForEval E h reqc rawObj = Run.ret (h, reqc) := by
  simp [Heap.makeReqcForEval, hload, hkind]

/-- The function on values describes the function on pointers: a panic of the
first is a panic of the second, and when the first returns `out` the second
returns a pointer to a struct equal to `out` in a memory where every struct
that existed before the call is unchanged. -/
theorem heap_makeReqcForEval_refines (E : Env) (h : Heap) (reqc : Nat) (self : ReqContext)
    (rawObj : List UInt8) (hload : h.load reqc = some self) :
    (∀ p, makeReqcForEval E self rawObj = Run.panic p →
      Heap.makeReqcForEval E h reqc rawObj = Run.panic p) ∧
    (∀ out, makeReqcForEval E self rawObj = Run.ret out →
      ∃ h' q, Heap.makeReqcForEval E h reqc rawObj = Run.ret (h', q) ∧
        h'.load q = some out ∧ ∀ a c, h.load a = some c → h'.load a = some c) := by
  cases hkind : E.IsResourceSignatureRequest self with
  | false =>
    have hval : makeReqcForEval E self rawObj = Run.ret self := by
      simp [makeReqcForEval, hkind]
    rw [hval, heap_makeReqcForEval_of_other_kind E h reqc self rawObj hload hkind]
    refine ⟨fun p hp => Run.noConfusion hp, ?_⟩
    intro out hout
    have hself : self = out := by
      injection hout
    exact ⟨h, reqc, rfl, hself ▸ hload, fun a c hc => hc⟩
  | true =>
    rw [heap_makeReqcForEval_of_resource_signature E h reqc self rawObj hload hkind]
    constructor
    · intro p hp
      rw [hp]
    · intro out hout
      rw [hout]
      refine ⟨_, _, rfl, getElem?_length_append_singleton h.cells out, ?_⟩
      intro a c hc
      exact getElem?_append_of_eq_some h.cells [out] a c hc

/-! ## Lemmas on selection composed with evaluation -/

/-- The `matched` flag of `MatchSigner` is the conjunction of the four
coordinate matches and of `Subject.Match`. -/
theorem MatchSigner_fst (E : Env) (r : Rule) (apiVersion kind name namespace_ : String)
    (signer : Option SignerInfo) :
    (MatchSigner E r apiVersion kind name namespace_ signer).1 =
      ((E.MatchPattern r.Resource.ApiVersion apiVersion &&
        E.MatchPattern r.Resource.Kind kind &&
        E.MatchPattern r.Resource.Name name &&
        E.MatchPattern r.Resource.Namespace namespace_) && r.Subject.Match E signer) := by
  unfold MatchSigner
  cases E.MatchPattern r.Resource.ApiVersion apiVersion <;>
  cases E.MatchPattern r.Resource.Kind kind <;>
  cases E.MatchPattern r.Resource.Name name <;>
  cases E.MatchPattern r.Resource.Namespace namespace_ <;>
  cases r.Subject.Match E signer <;> simp

/-- The `matched` flag of `MatchSigner` on a converted pattern is the
conjunction of the specification-side resource and subject matches. -/
theorem MatchSigner_ToPolicyRule_fst (E : Env) (c : ReqContext) (p : SignerMatchPattern)
    (s : SignerInfo) :
    (MatchSigner E (ToPolicyRule p) (E.GroupVersion c) c.Kind c.Name c.Namespace (some s)).1 =
      (resourcePatternMatches E c p && subjectPatternMatches E p s) := by
  rw [MatchSigner_fst]
  rfl

/-- With a non-nil signer `EnforceRuleList.Eval` returns a non-nil result that
allows iff the list is empty or one of its rules matches. -/
theorem EnforceRuleList.Eval_allow_iff (E : Env) (rules : EnforceRuleList) (c : ReqContext)
    (s : SignerInfo) :
    ∃ res err,
      rules.Eval E c (some s) = Run.ret (some res, err) ∧
      (res.Allow = true ↔
        (rules.Rules = [] ∨
          ∃ rule ∈ rules.Rules,
            (MatchSigner E rule.Instance (E.GroupVersion c) c.Kind c.Name c.Namespace
              (some s)).1 = true)) := by
  by_cases hnil : rules.Rules = []
  · refine ⟨{ Signer := some s, SignerName := "", Checked := true, Allow := true,
              MatchedRule := none, Error := none }, none, ?_, ?_⟩
    · simp only [EnforceRuleList.Eval, hnil, List.length_nil, if_true]
    · simp [hnil]
  · have hlen : rules.Rules.length ≠ 0 := by
      simpa [List.length_eq_zero] using hnil
    by_cases hex : ∃ rule ∈ rules.Rules,
        (MatchSigner E rule.Instance (E.GroupVersion c) c.Kind c.Name c.Namespace
          (some s)).1 = true
    · obtain ⟨pre, rule, post, hl, hpre, hrule⟩ :=
        exists_first_split
          (fun x => (MatchSigner E x.Instance (E.GroupVersion c) c.Kind c.Name c.Namespace
            (some s)).1) rules.Rules hex
      have hloop := evalRules_first_match E c (some s) pre rule post hpre hrule
      rw [← hl] at hloop
      refine ⟨{ Signer := some s, SignerName := rule.Instance.Name, Checked := true,
                Allow := true, MatchedRule := some rule.Instance, Error := none }, none, ?_, ?_⟩
      · simp only [EnforceRuleList.Eval, hlen, if_false, hloop]
      · simp only [true_iff]
        exact Or.inr hex
    · have hno : ∀ x ∈ rules.Rules,
          (MatchSigner E x.Instance (E.GroupVersion c) c.Kind c.Name c.Namespace
            (some s)).1 = false := by
        intro x hx
        cases hm : (MatchSigner E x.Instance (E.GroupVersion c) c.Kind c.Name c.Namespace
            (some s)).1
        · rfl
        · exact absurd ⟨x, hx, hm⟩ hex
      refine ⟨{ Signer := none, SignerName := "", Checked := true, Allow := false,
                MatchedRule := none, Error := none }, some (noSignerPolicyMessage s.Email), ?_, ?_⟩
      · simp only [EnforceRuleList.Eval, hlen, if_false,
          evalRules_eq_none E c (some s) rules.Rules hno]
      · simp only [Bool.false_eq_true, false_iff, not_or]
        exact ⟨hnil, hex⟩

/-! ## Lemmas on the evaluator -/

/-- A string that starts with a non-empty string is not empty. -/
theorem append_ne_empty (a b : String) (h : a ≠ "") : a ++ b ≠ "" := by
  intro hab
  apply h
  have hdata : a.data ++ b.data = [] := by
    rw [← String.data_append, hab]
  exact String.ext (List.append_eq_nil.mp hdata).1

/-- The part of `ConcreteSignPolicy.Eval` after the schema checks, when the
signature store has no signature for the request. -/
theorem ConcreteSignPolicy.Eval_no_signature (E : EvalEnv) (self : ConcreteSignPolicy)
    (reqc : ReqContext) (r1 r2 : String)
    (hpol : (if E.IsEnforcePolicyRequest reqc = true then
        E.ValidateEnforcePolicy reqc self.EnforcerNamespace self.PolicyNamespace
      else Run.ret (true, "")) = Run.ret (true, r1))
    (hsig : (if E.IsResourceSignatureRequest reqc = true then E.ValidateResourceSignature reqc
      else (true, "")) = (true, r2))
    (hnone : E.GetResourceSignature reqc = none) :
    self.Eval E reqc =
      ([Call.getResourceSignature], Run.ret (some
        { Signer := none
          SignerName := ""
          Allow := false
          Checked := true
          MatchedPolicy := ""
          Error := some { Error := none, Reason := "No signature found" } }, none)) := by
  unfold ConcreteSignPolicy.Eval
  simp only [hpol, hsig, hnone]

/-- Passing the policy schema check, as the value of the first check of
`ConcreteSignPolicy.Eval`. -/
theorem policyCheck_passes (E : EvalEnv) (self : ConcreteSignPolicy) (reqc : ReqContext)
    (hpol : E.IsEnforcePolicyRequest reqc = true →
      ∃ reason, E.ValidateEnforcePolicy reqc self.EnforcerNamespace self.PolicyNamespace =
        Run.ret (true, reason)) :
    ∃ r1, (if E.IsEnforcePolicyRequest reqc = true then
        E.ValidateEnforcePolicy reqc self.EnforcerNamespace self.PolicyNamespace
      else Run.ret (true, "")) = Run.ret (true, r1) := by
  by_cases h : E.IsEnforcePolicyRequest reqc = true
  · obtain ⟨reason, hr⟩ := hpol h
    exact ⟨reason, by simp [h, hr]⟩
  · exact ⟨"", by simp [h]⟩

/-- Passing the signature schema check, as the value of the second check of
`ConcreteSignPolicy.Eval`. -/
theorem signatureCheck_passes (E : EvalEnv) (reqc : ReqContext)
    (hsig : E.IsResourceSignatureRequest reqc = true →
      ∃ reason, E.ValidateResourceSignature reqc = (true, reason)) :
    ∃ r2, (if E.IsResourceSignatureRequest reqc = true then E.ValidateResourceSignature reqc
      else (true, "")) = (true, r2) := by
  by_cases h : E.IsResourceSignatureRequest reqc = true
  · obtain ⟨reason, hr⟩ := hsig h
    exact ⟨reason, by simp [h, hr]⟩
  · exact ⟨"", by simp [h]⟩

/-- The part of `ConcreteSignPolicy.Eval` after the schema checks, when a
signature is found and the verifier returns an error. -/
theorem ConcreteSignPolicy.Eval_verify_error (E : EvalEnv) (self : ConcreteSignPolicy)
    (reqc : ReqContext) (r1 r2 : String) (rsig : StoredSignature)
    (sigVerifyResult : Option SigVerifyResult) (err : String)
    (hpol : (if E.IsEnforcePolicyRequest reqc = true then
        E.ValidateEnforcePolicy reqc self.EnforcerNamespace self.PolicyNamespace
      else Run.ret (true, "")) = Run.ret (true, r1))
    (hsig : (if E.IsResourceSignatureRequest reqc = true then E.ValidateResourceSignature reqc
      else (true, "")) = (true, r2))
    (hsome : E.GetResourceSignature reqc = some rsig)
    (hverify : E.Verify rsig.SignType self.EnforcerNamespace rsig reqc =
      (sigVerifyResult, some err)) :
    self.Eval E reqc =
      ([Call.getResourceSignature, Call.verify], Run.ret (some
        { Signer := none
          SignerName := ""
          Allow := false
          Checked := true
          MatchedPolicy := ""
          Error := some { Error := some err, Reason := "Error during signature verification" } },
        none)) := by
  unfold ConcreteSignPolicy.Eval
  simp only [hpol, hsig, hsome, hverify]

/-- The part of `ConcreteSignPolicy.Eval` after the schema checks, when a
signature is found and the verifier returns no error and no signer. -/
theorem ConcreteSignPolicy.Eval_no_signer (E : EvalEnv) (self : ConcreteSignPolicy)
    (reqc : ReqContext) (r1 r2 : String) (rsig : StoredSignature)
    (sigVerifyResult : Option SigVerifyResult)
    (hpol : (if E.IsEnforcePolicyRequest reqc = true then
        E.ValidateEnforcePolicy reqc self.EnforcerNamespace self.PolicyNamespace
      else Run.ret (true, "")) = Run.ret (true, r1))
    (hsig : (if E.IsResourceSignatureRequest reqc = true then E.ValidateResourceSignature reqc
      else (true, "")) = (true, r2))
    (hsome : E.GetResourceSignature reqc = some rsig)
    (hverify : E.Verify rsig.SignType self.EnforcerNamespace rsig reqc = (sigVerifyResult, none))
    (hsigner : sigVerifyResult.bind (fun r => r.Signer) = none) :
    self.Eval E reqc =
      ([Call.getResourceSignature, Call.verify], Run.ret (some
        { Signer := none
          SignerName := ""
          Allow := false
          Checked := true
          MatchedPolicy := ""
          Error := some
            { Error := none
              Reason := "Failed to verify signature; " ++ verifyFailureMessage sigVerifyResult } },
        none)) := by
  unfold ConcreteSignPolicy.Eval
  simp only [hpol, hsig, hsome, hverify, hsigner]

/-! ## Claims -/

/-- C1. First match wins: when at least one rule of the list matches the
request and the (non-nil) signer, `EnforceRuleList.Eval` returns a nil error
and the result of the earliest matching rule: the list splits as
`pre ++ rule :: post` with no match in `pre`, and the result has
`Allow = true`, `MatchedRule = rule.Instance`, `SignerName = rule.Instance.Name`. -/
theorem first_match_wins (E : Env) (reqc : ReqContext) (signer : SignerInfo)
    (rules : EnforceRuleList)
    (h : ∃ x ∈ rules.Rules, (MatchSigner E x.Instance (E.GroupVersion reqc) reqc.Kind
      reqc.Name reqc.Namespace (some signer)).1 = true) :
    ∃ pre rule post,
      rules.Rules = pre ++ rule :: post ∧
      (∀ y ∈ pre, (MatchSigner E y.Instance (E.GroupVersion reqc) reqc.Kind reqc.Name
        reqc.Namespace (some signer)).1 = false) ∧
      (MatchSigner E rule.Instance (E.GroupVersion reqc) reqc.Kind reqc.Name
        reqc.Namespace (some signer)).1 = true ∧
      rules.Eval E reqc (some signer) =
        Run.ret (some
          { Signer := some signer
            SignerName := rule.Instance.Name
            Checked := true
            Allow := true
            MatchedRule := some rule.Instance
            Error := none }, none) := by
  obtain ⟨pre, rule, post, hl, hpre, hrule⟩ :=
    exists_first_split
      (fun x => (MatchSigner E x.Instance (E.GroupVersion reqc) reqc.Kind reqc.Name
        reqc.Namespace (some signer)).1) rules.Rules h
  refine ⟨pre, rule, post, hl, hpre, hrule, ?_⟩
  have hlen : rules.Rules.length ≠ 0 := by
    rw [hl]; simp
  have hloop := evalRules_first_match E reqc (some signer) pre rule post hpre hrule
  rw [← hl] at hloop
  simp [EnforceRuleList.Eval, hlen, hloop]

/-- C2. Empty-rule-list default allow: on an empty rule list
`EnforceRuleList.Eval` returns, for every request and every signer (nil
included), a nil error and a result with `Allow = true`, `Checked = true`,
an empty `SignerName` and no `MatchedRule`. -/
theorem empty_rule_list_default_allow (E : Env) (reqc : ReqContext)
    (signer : Option SignerInfo) :
    EnforceRuleList.Eval E { Rules := [] } reqc signer =
      Run.ret (some
        { Signer := signer
          SignerName := ""
          Checked := true
          Allow := true
          MatchedRule := none
          Error := none }, none) := by
  simp [EnforceRuleList.Eval]

/-- C3. Deny reason includes signer: on a non-empty rule list in which no rule
matches the request and the (non-nil) signer, `EnforceRuleList.Eval` returns a
result with `Allow = false`, `Checked = true` and a non-nil error whose
message contains the signer's `Email`. -/
theorem deny_reason_includes_signer (E : Env) (reqc : ReqContext) (signer : SignerInfo)
    (rules : EnforceRuleList) (hne : rules.Rules ≠ [])
    (hno : ∀ x ∈ rules.Rules, (MatchSigner E x.Instance (E.GroupVersion reqc) reqc.Kind
      reqc.Name reqc.Namespace (some signer)).1 = false) :
    ∃ res msg,
      rules.Eval E reqc (some signer) = Run.ret (some res, some msg) ∧
      res.Allow = false ∧ res.Checked = true ∧
      ∃ before after, msg = before ++ signer.Email ++ after := by
  have hlen : rules.Rules.length ≠ 0 := by
    simpa [List.length_eq_zero] using hne
  refine ⟨{ Signer := none, SignerName := "", Checked := true, Allow := false,
            MatchedRule := none, Error := none },
          noSignerPolicyMessage signer.Email, ?_, rfl, rfl,
          "No signer policies met this resource. this resource is signed by ", "", ?_⟩
  · simp [EnforceRuleList.Eval, hlen, evalRules_eq_none E reqc (some signer) rules.Rules hno]
  · simp [noSignerPolicyMessage]

/-- Witness of C1 on the sample list `[R1, R2]`, where both rules match. -/
theorem first_match_wins_witness :
    (∃ x ∈ sampleRules.Rules,
      (MatchSigner (sampleEnv (Except.error "eof")) x.Instance
        ((sampleEnv (Except.error "eof")).GroupVersion (sampleReqc "ConfigMap" "prod"))
        (sampleReqc "ConfigMap" "prod").Kind (sampleReqc "ConfigMap" "prod").Name
        (sampleReqc "ConfigMap" "prod").Namespace (some (sampleSigner "bob@co.com" "ACME"))).1
        = true) ∧
    ∃ pre rule post,
      sampleRules.Rules = pre ++ rule :: post ∧
      (∀ y ∈ pre,
        (MatchSigner (sampleEnv (Except.error "eof")) y.Instance
          ((sampleEnv (Except.error "eof")).GroupVersion (sampleReqc "ConfigMap" "prod"))
          (sampleReqc "ConfigMap" "prod").Kind (sampleReqc "ConfigMap" "prod").Name
          (sampleReqc "ConfigMap" "prod").Namespace (some (sampleSigner "bob@co.com" "ACME"))).1
          = false) ∧
      (MatchSigner (sampleEnv (Except.error "eof")) rule.Instance
        ((sampleEnv (Except.error "eof")).GroupVersion (sampleReqc "ConfigMap" "prod"))
        (sampleReqc "ConfigMap" "prod").Kind (sampleReqc "ConfigMap" "prod").Name
        (sampleReqc "ConfigMap" "prod").Namespace (some (sampleSigner "bob@co.com" "ACME"))).1
        = true ∧
      sampleRules.Eval (sampleEnv (Except.error "eof")) (sampleReqc "ConfigMap" "prod")
          (some (sampleSigner "bob@co.com" "ACME")) =
        Run.ret (some
          { Signer := some (sampleSigner "bob@co.com" "ACME")
            SignerName := rule.Instance.Name
            Checked := true
            Allow := true
            MatchedRule := some rule.Instance
            Error := none }, none) :=
  ⟨⟨sampleRule "R1" "ConfigMap" "prod" "bob@co.com", by decide, by decide⟩,
    first_match_wins (sampleEnv (Except.error "eof")) (sampleReqc "ConfigMap" "prod")
      (sampleSigner "bob@co.com" "ACME") sampleRules
      ⟨sampleRule "R1" "ConfigMap" "prod" "bob@co.com", by decide, by decide⟩⟩

/-- Witness of C3: the only rule asks for `bob@co.com`, the signer is
`alice@example.com`. -/
theorem deny_reason_includes_signer_witness :
    ∃ res msg,
      EnforceRuleList.Eval (sampleEnv (Except.error "eof"))
          { Rules := [sampleRule "R1" "ConfigMap" "prod" "bob@co.com"] }
          (sampleReqc "ConfigMap" "prod") (some (sampleSigner "alice@example.com" "ACME")) =
        Run.ret (some res, some msg) ∧
      res.Allow = false ∧ res.Checked = true ∧
      ∃ before after, msg = before ++ "alice@example.com" ++ after :=
  deny_reason_includes_signer (sampleEnv (Except.error "eof")) (sampleReqc "ConfigMap" "prod")
    (sampleSigner "alice@example.com" "ACME")
    { Rules := [sampleRule "R1" "ConfigMap" "prod" "bob@co.com"] } (by decide) (by decide)

/-- C4, as stated, fails: with a nil signer and the sample list of one rule
`EnforceRuleList.Eval` panics with a nil dereference (the read of
`signer.Email` after the loop), so it returns no deny result at all. -/
theorem eval_nil_signer_panics :
    EnforceRuleList.Eval (sampleEnv (Except.error "eof"))
        { Rules := [sampleRule "R1" "ConfigMap" "prod" "bob@co.com"] }
        (sampleReqc "ConfigMap" "prod") none =
      Run.panic Panic.nilDereference ∧
    ¬ ∃ res err,
      EnforceRuleList.Eval (sampleEnv (Except.error "eof"))
          { Rules := [sampleRule "R1" "ConfigMap" "prod" "bob@co.com"] }
          (sampleReqc "ConfigMap" "prod") none =
        Run.ret (some res, err) ∧ res.Allow = false ∧ res.Checked = true := by
  have hpanic := EnforceRuleList.Eval_nil_signer (sampleEnv (Except.error "eof"))
    { Rules := [sampleRule "R1" "ConfigMap" "prod" "bob@co.com"] }
    (sampleReqc "ConfigMap" "prod") (by decide)
  refine ⟨hpanic, ?_⟩
  rintro ⟨res, err, hret, -, -⟩
  rw [hpanic] at hret
  exact Run.noConfusion hret

/-- C4, amended. The no-match deny is a normal result for every signer that
reaches the rule list, and an absent signer is denied before it.  First: on a
non-empty rule list in which no rule matches, `EnforceRuleList.Eval` with a
non-nil signer returns `Allow = false`, `Checked = true` and the error message
`No signer policies met this resource. this resource is signed by ` followed
by the signer's `Email`, so the email part is empty when that `Email` is
empty.  Second: when the verifier returns no error and no signer,
`ConcreteSignPolicy.Eval` returns a deny result with `Allow = false`,
`Checked = true` and a nil error after the verifier call, without calling the
rule list. -/
theorem no_match_deny_with_signer :
    (∀ (E : Env) (reqc : ReqContext) (rules : EnforceRuleList) (signer : SignerInfo),
      rules.Rules ≠ [] →
      (∀ x ∈ rules.Rules, (MatchSigner E x.Instance (E.GroupVersion reqc) reqc.Kind
        reqc.Name reqc.Namespace (some signer)).1 = false) →
      rules.Eval E reqc (some signer) =
          Run.ret (some
            { Signer := none
              SignerName := ""
              Checked := true
              Allow := false
              MatchedRule := none
              Error := none },
            some ("No signer policies met this resource. this resource is signed by " ++
              signer.Email)) ∧
        (signer.Email = "" →
          rules.Eval E reqc (some signer) =
            Run.ret (some
              { Signer := none
                SignerName := ""
                Checked := true
                Allow := false
                MatchedRule := none
                Error := none },
              some "No signer policies met this resource. this resource is signed by "))) ∧
    (∀ (E : EvalEnv) (self : ConcreteSignPolicy) (reqc : ReqContext) (rsig : StoredSignature)
      (sigVerifyResult : Option SigVerifyResult),
      (E.IsEnforcePolicyRequest reqc = true →
        ∃ reason, E.ValidateEnforcePolicy reqc self.EnforcerNamespace self.PolicyNamespace =
          Run.ret (true, reason)) →
      (E.IsResourceSignatureRequest reqc = true →
        ∃ reason, E.ValidateResourceSignature reqc = (true, reason)) →
      E.GetResourceSignature reqc = some rsig →
      E.Verify rsig.SignType self.EnforcerNamespace rsig reqc = (sigVerifyResult, none) →
      sigVerifyResult.bind (fun r => r.Signer) = none →
      ∃ res,
        self.Eval E reqc = ([Call.getResourceSignature, Call.verify], Run.ret (some res, none)) ∧
        res.Allow = false ∧ res.Checked = true) := by
  constructor
  · intro E reqc rules signer hne hno
    have hlen : rules.Rules.length ≠ 0 := by
      simpa [List.length_eq_zero] using hne
    have hret : rules.Eval E reqc (some signer) =
        Run.ret (some
          { Signer := none
            SignerName := ""
            Checked := true
            Allow := false
            MatchedRule := none
            Error := none },
          some ("No signer policies met this resource. this resource is signed by " ++
            signer.Email)) := by
      simp only [EnforceRuleList.Eval, hlen, if_false,
        evalRules_eq_none E reqc (some signer) rules.Rules hno, noSignerPolicyMessage]
    refine ⟨hret, ?_⟩
    intro hempty
    rw [hret, hempty]
    rfl
  · intro E self reqc rsig sigVerifyResult hpol hsig hsome hverify hsigner
    obtain ⟨r1, h1⟩ := policyCheck_passes E self reqc hpol
    obtain ⟨r2, h2⟩ := signatureCheck_passes E reqc hsig
    exact ⟨_, ConcreteSignPolicy.Eval_no_signer E self reqc r1 r2 rsig sigVerifyResult h1 h2
      hsome hverify hsigner, rfl, rfl⟩

/-- Witness of the amended C4: a signer without email that matches no rule is
denied with an empty email part, and a verifier result without signer is
denied before the rule list. -/
theorem no_match_deny_with_signer_witness :
    EnforceRuleList.Eval (sampleEnv (Except.error "eof"))
        { Rules := [sampleRule "R1" "ConfigMap" "prod" "bob@co.com"] }
        (sampleReqc "ConfigMap" "prod") (some (sampleSigner "" "ACME")) =
      Run.ret (some
        { Signer := none
          SignerName := ""
          Checked := true
          Allow := false
          MatchedRule := none
          Error := none },
        some "No signer policies met this resource. this resource is signed by ") ∧
    ∃ res,
      samplePolicy.Eval
          (sampleEvalEnv (some sampleSignature) (some { Signer := none, Error := none }, none))
          (sampleReqc "ConfigMap" "prod") =
        ([Call.getResourceSignature, Call.verify], Run.ret (some res, none)) ∧
      res.Allow = false ∧ res.Checked = true :=
  ⟨(no_match_deny_with_signer.1 (sampleEnv (Except.error "eof")) (sampleReqc "ConfigMap" "prod")
      { Rules := [sampleRule "R1" "ConfigMap" "prod" "bob@co.com"] } (sampleSigner "" "ACME")
      (by decide) (by decide)).2 rfl,
    no_match_deny_with_signer.2
      (sampleEvalEnv (some sampleSignature) (some { Signer := none, Error := none }, none))
      samplePolicy (sampleReqc "ConfigMap" "prod") sampleSignature
      (some { Signer := none, Error := none }) (fun _ => ⟨"", rfl⟩) (fun _ => ⟨"", rfl⟩) rfl rfl
      rfl⟩

/-- C5. `MatchSigner` returns `(matched, resourceMatched)` where
`resourceMatched` holds iff `MatchPattern` succeeds on the four pairs
apiVersion, kind, name and namespace, and `matched` holds iff
`resourceMatched` holds and `r.Subject.Match(signer)` holds. -/
theorem MatchSigner_flags (E : Env) (r : Rule) (apiVersion kind name namespace_ : String)
    (signer : Option SignerInfo) :
    ((MatchSigner E r apiVersion kind name namespace_ signer).2 = true ↔
      (E.MatchPattern r.Resource.ApiVersion apiVersion = true ∧
        E.MatchPattern r.Resource.Kind kind = true ∧
        E.MatchPattern r.Resource.Name name = true ∧
        E.MatchPattern r.Resource.Namespace namespace_ = true)) ∧
    ((MatchSigner E r apiVersion kind name namespace_ signer).1 = true ↔
      ((MatchSigner E r apiVersion kind name namespace_ signer).2 = true ∧
        r.Subject.Match E signer = true)) := by
  unfold MatchSigner
  cases E.MatchPattern r.Resource.ApiVersion apiVersion <;>
  cases E.MatchPattern r.Resource.Kind kind <;>
  cases E.MatchPattern r.Resource.Name name <;>
  cases E.MatchPattern r.Resource.Namespace namespace_ <;>
  cases r.Subject.Match E signer <;> simp

/-- C6. For a non-nil signer, `Subject.Match` holds iff `MatchPattern`
succeeds on each of the eleven field pairs Email, Uid, Country, Organization,
OrganizationalUnit, Locality, Province, StreetAddress, PostalCode, CommonName
and SerialNumber. -/
theorem Subject_Match_iff_all_eleven (E : Env) (v : Subject) (signer : SignerInfo) :
    v.Match E (some signer) = true ↔
      (E.MatchPattern v.Email signer.Email = true ∧
        E.MatchPattern v.Uid signer.Uid = true ∧
        E.MatchPattern v.Country signer.Country = true ∧
        E.MatchPattern v.Organization signer.Organization = true ∧
        E.MatchPattern v.OrganizationalUnit signer.OrganizationalUnit = true ∧
        E.MatchPattern v.Locality signer.Locality = true ∧
        E.MatchPattern v.Province signer.Province = true ∧
        E.MatchPattern v.StreetAddress signer.StreetAddress = true ∧
        E.MatchPattern v.PostalCode signer.PostalCode = true ∧
        E.MatchPattern v.CommonName signer.CommonName = true ∧
        E.MatchPattern v.SerialNumber signer.SerialNumber = true) := by
  simp [Subject.Match, and_assoc]

/-- C7. An unverifiable signer never matches: `Subject.Match(nil)` is false
for every subject pattern, and `MatchSigner` with a nil signer returns
`matched = false` for every rule and all coordinates. -/
theorem nil_signer_never_matches (E : Env) :
    (∀ v : Subject, v.Match E none = false) ∧
    (∀ (r : Rule) (apiVersion kind name namespace_ : String),
      (MatchSigner E r apiVersion kind name namespace_ none).1 = false) := by
  refine ⟨fun v => rfl, ?_⟩
  intro r apiVersion kind name namespace_
  simp [MatchSigner, Subject.Match]

/-- C8. Rule selection is an order-preserving filter: `Find` returns exactly
`ToPolicyRule p` for the patterns `p` whose resource pattern matches the
request's GroupVersion, Kind, Name and Namespace, in the order of the pattern
list, and every rule it returns has a matching resource pattern. -/
theorem Find_is_order_preserving_filter (E : Env) (self : EnforceRuleStoreFromPolicy)
    (reqc : ReqContext) :
    (self.Find E reqc).Rules =
        (self.Patterns.filter (resourcePatternMatches E reqc)).map
          (fun p => { Instance := ToPolicyRule p }) ∧
    ∀ rule ∈ (self.Find E reqc).Rules,
      E.MatchPattern rule.Instance.Resource.ApiVersion (E.GroupVersion reqc) = true ∧
      E.MatchPattern rule.Instance.Resource.Kind reqc.Kind = true ∧
      E.MatchPattern rule.Instance.Resource.Name reqc.Name = true ∧
      E.MatchPattern rule.Instance.Resource.Namespace reqc.Namespace = true := by
  have hfind : (self.Find E reqc).Rules = selectedRules E reqc self.Patterns := by
    simp [EnforceRuleStoreFromPolicy.Find, foldl_findStep]
  refine ⟨hfind, ?_⟩
  intro rule hrule
  rw [hfind] at hrule
  obtain ⟨p, hp, rfl⟩ := List.mem_map.mp hrule
  have hmatch := (List.mem_filter.mp hp).2
  simpa [resourcePatternMatches, ToPolicyRule, and_assoc] using hmatch

/-- C9. Context rewrite overrides only the namespace: for a resource-signature
request whose payload parses and whose first target descriptor has a
non-empty namespace `ns`, `makeReqcForEval` returns a pointer to a newly
allocated context, different from `reqc`, that equals the original in every
field except `Namespace`, which is `ns`; the struct behind `reqc` and every
other struct in memory are as before the call; when `ns` is the request's own
namespace the returned context equals the original in all fields.  The same
holds for the function read on values. -/
theorem makeReqcForEval_overrides_namespace (E : Env) (h : Heap) (reqc : Nat)
    (orig : ReqContext) (rawObj : List UInt8) (rsigObj : ResourceSignature) (d : SignItem)
    (rest : List SignItem)
    (hload : h.load reqc = some orig)
    (hkind : E.IsResourceSignatureRequest orig = true)
    (hparse : E.Unmarshal rawObj = Except.ok (some rsigObj))
    (hdata : rsigObj.Spec.Data = d :: rest) (hns : d.Metadata.Namespace ≠ "") :
    (∃ h' reqcForEval,
      Heap.makeReqcForEval E h reqc rawObj = Run.ret (h', reqcForEval) ∧
      h'.load reqcForEval = some
        { ApiGroup := orig.ApiGroup
          ApiVersion := orig.ApiVersion
          Kind := orig.Kind
          Name := orig.Name
          Namespace := d.Metadata.Namespace
          ResourceScope := orig.ResourceScope
          Operation := orig.Operation
          RawObject := orig.RawObject
          UserName := orig.UserName
          UserGroups := orig.UserGroups
          DryRun := orig.DryRun } ∧
      h.load reqcForEval = none ∧
      reqcForEval ≠ reqc ∧
      h'.load reqc = some orig ∧
      (∀ a c, h.load a = some c → h'.load a = some c) ∧
      (d.Metadata.Namespace = orig.Namespace → h'.load reqcForEval = some orig)) ∧
    makeReqcForEval E orig rawObj =
        Run.ret
          { ApiGroup := orig.ApiGroup
            ApiVersion := orig.ApiVersion
            Kind := orig.Kind
            Name := orig.Name
            Namespace := d.Metadata.Namespace
            ResourceScope := orig.ResourceScope
            Operation := orig.Operation
            RawObject := orig.RawObject
            UserName := orig.UserName
            UserGroups := orig.UserGroups
            DryRun := orig.DryRun } ∧
    (d.Metadata.Namespace = orig.Namespace → makeReqcForEval E orig rawObj = Run.ret orig) := by
  have hret : makeReqcForEval E orig rawObj =
      Run.ret { orig with Namespace := d.Metadata.Namespace } := by
    simp [makeReqcForEval, hkind, hparse, hdata, hns]
  have hheap := heap_makeReqcForEval_of_resource_signature E h reqc orig rawObj hload hkind
  rw [hret] at hheap
  have hnew : (Heap.mk (h.cells ++ [{ orig with Namespace := d.Metadata.Namespace }])).load
      h.cells.length = some { orig with Namespace := d.Metadata.Namespace } :=
    getElem?_length_append_singleton h.cells _
  have hold : ∀ a c, h.load a = some c →
      (Heap.mk (h.cells ++ [{ orig with Namespace := d.Metadata.Namespace }])).load a = some c :=
    fun a c hc => getElem?_append_of_eq_some h.cells _ a c hc
  have hlt := Heap.lt_length_of_load h reqc orig hload
  refine ⟨⟨_, _, hheap, hnew, ?_, ?_, hold reqc orig hload, hold, ?_⟩, hret, ?_⟩
  · exact List.getElem?_eq_none (Nat.le_refl _)
  · exact Nat.ne_of_gt hlt
  · intro hsame
    rw [hnew, hsame]
  · intro hsame
    rw [hret, hsame]

/-- Witness of C9: the request in memory has envelope namespace `sig-ns`, the
embedded namespace is `prod`; the returned pointer is new, the struct behind
it has namespace `prod`, the struct behind `reqc` still has `sig-ns`. -/
theorem makeReqcForEval_overrides_namespace_witness :
    (∃ h' reqcForEval,
      Heap.makeReqcForEval
          (sampleEnv (Except.ok (some { Spec := { Data := [{ Metadata := { Namespace := "prod" } }] } })))
          { cells := [sampleReqc "ResourceSignature" "sig-ns"] } 0 [] =
        Run.ret (h', reqcForEval) ∧
      h'.load reqcForEval = some (sampleReqc "ResourceSignature" "prod") ∧
      reqcForEval ≠ 0 ∧
      h'.load 0 = some (sampleReqc "ResourceSignature" "sig-ns")) ∧
    makeReqcForEval
        (sampleEnv (Except.ok (some { Spec := { Data := [{ Metadata := { Namespace := "prod" } }] } })))
        (sampleReqc "ResourceSignature" "sig-ns") [] =
      Run.ret (sampleReqc "ResourceSignature" "prod") := by
  obtain ⟨⟨h', reqcForEval, heq, hnew, -, hne, hold, -, -⟩, hval, -⟩ :=
    makeReqcForEval_overrides_namespace
      (sampleEnv (Except.ok (some { Spec := { Data := [{ Metadata := { Namespace := "prod" } }] } })))
      { cells := [sampleReqc "ResourceSignature" "sig-ns"] } 0
      (sampleReqc "ResourceSignature" "sig-ns") []
      { Spec := { Data := [{ Metadata := { Namespace := "prod" } }] } }
      { Metadata := { Namespace := "prod" } } [] rfl rfl rfl rfl (by decide)
  exact ⟨⟨h', reqcForEval, heq, hnew, hne, hold⟩, hval⟩

/-- C10. The lenient fallback does not cover every payload without an embedded
namespace: for a resource-signature request whose payload decodes to an object
with no target descriptor `makeReqcForEval` panics on `Spec.Data[0]`, and for
a payload that decodes to nil (JSON `null`) it panics on `rsigObj.Spec`. -/
theorem makeReqcForEval_panics_without_descriptor :
    makeReqcForEval (sampleEnv (Except.ok (some { Spec := { Data := [] } })))
        (sampleReqc "ResourceSignature" "sig-ns") [123, 125] =
      Run.panic Panic.indexOutOfRange ∧
    makeReqcForEval (sampleEnv (Except.ok none))
        (sampleReqc "ResourceSignature" "sig-ns") [110, 117, 108, 108] =
      Run.panic Panic.nilDereference :=
  ⟨makeReqcForEval_no_descriptor _ _ _ { Spec := { Data := [] } } rfl rfl rfl,
    makeReqcForEval_null_payload _ _ _ rfl rfl⟩

/-- C11. Missing signature is a terminal deny result: for a request that
passes the schema checks and for which the signature store returns no
signature, `ConcreteSignPolicy.Eval` returns a nil error and a result with
`Allow = false`, `Checked = true` and `Error.Reason` exactly
`"No signature found"`, and the only call it makes is the store look-up:
neither the verifier nor the rule list is invoked. -/
theorem missing_signature_is_terminal_deny (E : EvalEnv) (self : ConcreteSignPolicy)
    (reqc : ReqContext)
    (hpol : E.IsEnforcePolicyRequest reqc = true →
      ∃ reason, E.ValidateEnforcePolicy reqc self.EnforcerNamespace self.PolicyNamespace =
        Run.ret (true, reason))
    (hsig : E.IsResourceSignatureRequest reqc = true →
      ∃ reason, E.ValidateResourceSignature reqc = (true, reason))
    (hnone : E.GetResourceSignature reqc = none) :
    self.Eval E reqc =
      ([Call.getResourceSignature], Run.ret (some
        { Signer := none
          SignerName := ""
          Allow := false
          Checked := true
          MatchedPolicy := ""
          Error := some { Error := none, Reason := "No signature found" } }, none)) := by
  obtain ⟨r1, h1⟩ := policyCheck_passes E self reqc hpol
  obtain ⟨r2, h2⟩ := signatureCheck_passes E reqc hsig
  exact ConcreteSignPolicy.Eval_no_signature E self reqc r1 r2 h1 h2 hnone

/-- Witness of C11: a `ConfigMap` request, the store has no signature. -/
theorem missing_signature_is_terminal_deny_witness :
    samplePolicy.Eval (sampleEvalEnv none (none, none)) (sampleReqc "ConfigMap" "prod") =
      ([Call.getResourceSignature], Run.ret (some
        { Signer := none
          SignerName := ""
          Allow := false
          Checked := true
          MatchedPolicy := ""
          Error := some { Error := none, Reason := "No signature found" } }, none)) :=
  missing_signature_is_terminal_deny (sampleEvalEnv none (none, none)) samplePolicy
    (sampleReqc "ConfigMap" "prod") (fun _ => ⟨"", rfl⟩) (fun _ => ⟨"", rfl⟩) rfl

/-- C12. Verification failure is a terminal deny result: for a request that
passes the schema checks and for which a signature is found, if the verifier
returns an error, or a nil result, or a result without a signer, then
`ConcreteSignPolicy.Eval` stops after the verifier call and returns a nil
error and a result with `Allow = false`, `Checked = true` and a non-empty
`Error.Reason`; an error returned by the verifier is carried in `Error.Error`. -/
theorem verification_failure_is_terminal_deny (E : EvalEnv) (self : ConcreteSignPolicy)
    (reqc : ReqContext) (rsig : StoredSignature)
    (hpol : E.IsEnforcePolicyRequest reqc = true →
      ∃ reason, E.ValidateEnforcePolicy reqc self.EnforcerNamespace self.PolicyNamespace =
        Run.ret (true, reason))
    (hsig : E.IsResourceSignatureRequest reqc = true →
      ∃ reason, E.ValidateResourceSignature reqc = (true, reason))
    (hsome : E.GetResourceSignature reqc = some rsig)
    (hfail : (E.Verify rsig.SignType self.EnforcerNamespace rsig reqc).2 ≠ none ∨
      (E.Verify rsig.SignType self.EnforcerNamespace rsig reqc).1 = none ∨
      ∃ r, (E.Verify rsig.SignType self.EnforcerNamespace rsig reqc).1 = some r ∧
        r.Signer = none) :
    ∃ res checkError,
      self.Eval E reqc = ([Call.getResourceSignature, Call.verify], Run.ret (some res, none)) ∧
      res.Allow = false ∧ res.Checked = true ∧
      res.Error = some checkError ∧ checkError.Reason ≠ "" ∧
      ∀ err, (E.Verify rsig.SignType self.EnforcerNamespace rsig reqc).2 = some err →
        checkError.Error = some err := by
  obtain ⟨r1, h1⟩ := policyCheck_passes E self reqc hpol
  obtain ⟨r2, h2⟩ := signatureCheck_passes E reqc hsig
  rcases hv : E.Verify rsig.SignType self.EnforcerNamespace rsig reqc with ⟨result, verr⟩
  rw [hv] at hfail
  cases verr with
  | some err =>
    refine ⟨_, _, ConcreteSignPolicy.Eval_verify_error E self reqc r1 r2 rsig result err h1 h2
      hsome hv, rfl, rfl, rfl, ?_, ?_⟩
    · show "Error during signature verification" ≠ ""
      decide
    · intro err2 herr
      simpa using herr
  | none =>
    have hsigner : result.bind (fun r => r.Signer) = none := by
      rcases hfail with h | h | ⟨r, hr, hs⟩
      · exact absurd rfl h
      · simp only at h
        rw [h]
        rfl
      · simp only at hr
        rw [hr]
        exact hs
    refine ⟨_, _, ConcreteSignPolicy.Eval_no_signer E self reqc r1 r2 rsig result h1 h2 hsome hv
      hsigner, rfl, rfl, rfl, append_ne_empty _ _ (by decide), ?_⟩
    intro err2 herr
    simp at herr

/-- Witness of C12: a signature is found and the verifier fails with the
error `bad signature`. -/
theorem verification_failure_is_terminal_deny_witness :
    ∃ res checkError,
      samplePolicy.Eval (sampleEvalEnv (some sampleSignature) (none, some "bad signature"))
          (sampleReqc "ConfigMap" "prod") =
        ([Call.getResourceSignature, Call.verify], Run.ret (some res, none)) ∧
      res.Allow = false ∧ res.Checked = true ∧
      res.Error = some checkError ∧ checkError.Reason ≠ "" ∧
      ∀ err,
        ((sampleEvalEnv (some sampleSignature) (none, some "bad signature")).Verify
          sampleSignature.SignType samplePolicy.EnforcerNamespace sampleSignature
          (sampleReqc "ConfigMap" "prod")).2 = some err →
        checkError.Error = some err :=
  verification_failure_is_terminal_deny
    (sampleEvalEnv (some sampleSignature) (none, some "bad signature")) samplePolicy
    (sampleReqc "ConfigMap" "prod") sampleSignature (fun _ => ⟨"", rfl⟩) (fun _ => ⟨"", rfl⟩) rfl
    (Or.inl (by decide))

/-- C13. Composed decision of selection plus evaluation: for every pattern
list, request `c` and non-nil signer `s`, `Find(c).Eval(c, s)` returns a
result whose `Allow` holds iff no pattern's resource pattern matches `c` or
some pattern matches both `c` and `s`; and on the list returned by `Find` a
rule matches iff its `Subject.Match(s)` holds. -/
theorem Find_then_Eval_allows_iff (E : Env) (patterns : List SignerMatchPattern)
    (c : ReqContext) (s : SignerInfo) :
    ∃ res err,
      (EnforceRuleStoreFromPolicy.Find E { Patterns := patterns } c).Eval E c (some s) =
        Run.ret (some res, err) ∧
      (res.Allow = true ↔
        ((∀ p ∈ patterns, resourcePatternMatches E c p = false) ∨
          ∃ p ∈ patterns,
            resourcePatternMatches E c p = true ∧ subjectPatternMatches E p s = true)) ∧
      ∀ rule ∈ (EnforceRuleStoreFromPolicy.Find E { Patterns := patterns } c).Rules,
        ((MatchSigner E rule.Instance (E.GroupVersion c) c.Kind c.Name c.Namespace
            (some s)).1 = true ↔
          rule.Instance.Subject.Match E (some s) = true) := by
  have hfind : (EnforceRuleStoreFromPolicy.Find E { Patterns := patterns } c).Rules =
      selectedRules E c patterns := by
    simp [EnforceRuleStoreFromPolicy.Find, foldl_findStep]
  obtain ⟨res, err, heval, hallow⟩ :=
    EnforceRuleList.Eval_allow_iff E (EnforceRuleStoreFromPolicy.Find E { Patterns := patterns } c)
      c s
  refine ⟨res, err, heval, ?_, ?_⟩
  · rw [hallow, hfind]
    constructor
    · rintro (hnil | ⟨rule, hrule, hm⟩)
      · left
        intro p hp
        cases hr : resourcePatternMatches E c p
        · rfl
        · have hmem : p ∈ patterns.filter (resourcePatternMatches E c) :=
            List.mem_filter.mpr ⟨hp, hr⟩
          have hne : selectedRules E c patterns ≠ [] := by
            intro h
            have hmap := List.map_eq_nil_iff.mp h
            rw [hmap] at hmem
            exact absurd hmem (List.not_mem_nil p)
          exact absurd hnil hne
      · right
        obtain ⟨p, hp, rfl⟩ := List.mem_map.mp hrule
        have hpm := List.mem_filter.mp hp
        rw [MatchSigner_ToPolicyRule_fst] at hm
        have hboth := Bool.and_eq_true_iff.mp hm
        exact ⟨p, hpm.1, hboth.1, hboth.2⟩
    · rintro (hnone | ⟨p, hp, hr, hs⟩)
      · left
        have hfilter : patterns.filter (resourcePatternMatches E c) = [] := by
          apply List.filter_eq_nil_iff.mpr
          intro p hp
          simp [hnone p hp]
        simp [selectedRules, hfilter]
      · right
        refine ⟨{ Instance := ToPolicyRule p }, ?_, ?_⟩
        · exact List.mem_map.mpr ⟨p, List.mem_filter.mpr ⟨hp, hr⟩, rfl⟩
        · rw [MatchSigner_ToPolicyRule_fst, hr, hs]
          rfl
  · intro rule hrule
    rw [hfind] at hrule
    obtain ⟨p, hp, rfl⟩ := List.mem_map.mp hrule
    have hr := (List.mem_filter.mp hp).2
    rw [MatchSigner_ToPolicyRule_fst, hr]
    simp only [Bool.true_and]
    exact Iff.rfl

/-- C14. Rule/pattern conversion round trip: `ToPolicyRule (ToSignerMatchPattern r)`
is `r` with its type set to `Allow`, hence `r` itself when `r` has type
`Allow`; and `ToSignerMatchPattern (ToPolicyRule p)` agrees with `p` on the
four request fields, the condition name and the eleven subject fields. -/
theorem conversion_round_trip (r : Rule) (p : SignerMatchPattern) :
    ToPolicyRule (ToSignerMatchPattern r) =
        { Type_ := EnforcerPolicyType.Allow
          Resource := r.Resource
          Subject := r.Subject
          Name := r.Name } ∧
    (r.Type_ = EnforcerPolicyType.Allow → ToPolicyRule (ToSignerMatchPattern r) = r) ∧
    (ToSignerMatchPattern (ToPolicyRule p)).Request.ApiVersion = p.Request.ApiVersion ∧
    (ToSignerMatchPattern (ToPolicyRule p)).Request.Kind = p.Request.Kind ∧
    (ToSignerMatchPattern (ToPolicyRule p)).Request.Name = p.Request.Name ∧
    (ToSignerMatchPattern (ToPolicyRule p)).Request.Namespace = p.Request.Namespace ∧
    (ToSignerMatchPattern (ToPolicyRule p)).Condition.Name = p.Condition.Name ∧
    (ToSignerMatchPattern (ToPolicyRule p)).Condition.Subject.Email =
      p.Condition.Subject.Email ∧
    (ToSignerMatchPattern (ToPolicyRule p)).Condition.Subject.Uid = p.Condition.Subject.Uid ∧
    (ToSignerMatchPattern (ToPolicyRule p)).Condition.Subject.Country =
      p.Condition.Subject.Country ∧
    (ToSignerMatchPattern (ToPolicyRule p)).Condition.Subject.Organization =
      p.Condition.Subject.Organization ∧
    (ToSignerMatchPattern (ToPolicyRule p)).Condition.Subject.OrganizationalUnit =
      p.Condition.Subject.OrganizationalUnit ∧
    (ToSignerMatchPattern (ToPolicyRule p)).Condition.Subject.Locality =
      p.Condition.Subject.Locality ∧
    (ToSignerMatchPattern (ToPolicyRule p)).Condition.Subject.Province =
      p.Condition.Subject.Province ∧
    (ToSignerMatchPattern (ToPolicyRule p)).Condition.Subject.StreetAddress =
      p.Condition.Subject.StreetAddress ∧
    (ToSignerMatchPattern (ToPolicyRule p)).Condition.Subject.PostalCode =
      p.Condition.Subject.PostalCode ∧
    (ToSignerMatchPattern (ToPolicyRule p)).Condition.Subject.CommonName =
      p.Condition.Subject.CommonName ∧
    (ToSignerMatchPattern (ToPolicyRule p)).Condition.Subject.SerialNumber =
      p.Condition.Subject.SerialNumber := by
  have hround : ToPolicyRule (ToSignerMatchPattern r) =
      { Type_ := EnforcerPolicyType.Allow
        Resource := r.Resource
        Subject := r.Subject
        Name := r.Name } := rfl
  refine ⟨hround, ?_, rfl, rfl, rfl, rfl, rfl, rfl, rfl, rfl, rfl, rfl, rfl, rfl, rfl, rfl, rfl,
    rfl⟩
  intro hallow
  rw [hround, ← hallow]

/-- Witness of C14: the sample rule `R1` has type `Allow` and is mapped to
itself by the round trip. -/
theorem conversion_round_trip_witness :
    ToPolicyRule (ToSignerMatchPattern (sampleRule "R1" "ConfigMap" "prod" "bob@co.com").Instance) =
      (sampleRule "R1" "ConfigMap" "prod" "bob@co.com").Instance :=
  (conversion_round_trip (sampleRule "R1" "ConfigMap" "prod" "bob@co.com").Instance
    (samplePattern "R1" "ConfigMap" "prod" "bob@co.com")).2.1 rfl

end IntegrityEnforcer
